import Mathlib

/-!
Shallow embedding of the Selective-Repeat transport protocol in `sr.c`.

The protocol core consists of a checksum codec (`ComputeChecksum`,
`IsCorrupted`), a sender state machine (`A_output`, `A_input`,
`A_timerinterrupt`, `A_init`) and a receiver state machine (`B_input`,
`B_init`).  Machine `int`s are modelled as `Int`; the fixed-size C arrays
of length `SEQSPACE` are modelled as Lean lists of that length, indexed
with `List.getD` and updated with `List.set`.  Entry points return the
new state together with the calls they made into the environment
(`tolayer3`, `tolayer5`, `starttimer`, `stoptimer`), recorded as data.
-/

namespace SR

/-- Constant from sr.c line 26. -/
def WINDOWSIZE : Nat := 6

/-- Constant from sr.c line 28. -/
def SEQSPACE : Nat := 64

/-- Constant from sr.c line 29: fills header fields that are not used. -/
def NOTINUSE : Int := -1

/-- The packet structure (struct pkt from the emulator): sequence number,
acknowledgement number, checksum, and a 20-byte payload of C chars,
modelled as a list of integers. -/
structure Pkt where
  seqnum : Int
  acknum : Int
  checksum : Int
  payload : List Int
deriving DecidableEq, Repr

/-- The all-zero packet (C static storage is zero-initialised). -/
def pkt0 : Pkt := ⟨0, 0, 0, List.replicate 20 0⟩

/-- An application-layer message (struct msg): 20 data bytes. -/
structure Msg where
  data : List Int
deriving DecidableEq, Repr

/-- sr.c lines 36-47: checksum = seqnum + acknum + sum of the 20 payload
bytes, accumulated by the C for-loop. -/
def ComputeChecksum (p : Pkt) : Int :=
  (List.range 20).foldl (fun c i => c + p.payload.getD i 0) (p.seqnum + p.acknum)

/-- sr.c lines 49-55: a packet is corrupted iff its stored checksum
differs from the recomputed one. -/
def IsCorrupted (p : Pkt) : Bool :=
  if p.checksum = ComputeChecksum p then false else true

/-- The window-membership test used verbatim by A_input (sr.c lines
135-136) and B_input (sr.c lines 226-227):
(x < base AND base - x > SEQSPACE/2) OR
(x >= base AND x < (base + WINDOWSIZE) % SEQSPACE),
with C int comparisons. -/
def srWindowTest (x : Int) (base : Nat) : Bool :=
  (x < (base : Int) && (base : Int) - x > (SEQSPACE : Int) / 2) ||
  (x ≥ (base : Int) && x < (((base + WINDOWSIZE) % SEQSPACE : Nat) : Int))

/-- Modelled from the spec, section 4.2 (not present in sr.c, which uses
`srWindowTest` inline instead): inWindow(x, base, size, seqspace) is true
iff (x - base + seqspace) % seqspace < size. -/
def inWindow (x base size seqspace : Int) : Bool :=
  (x - base + seqspace) % seqspace < size

/-- Sender slot status, sr.c lines 60-64. -/
inductive PacketStatus where
  | NOT_SENT
  | SENT_NOT_ACKED
  | ACKED
deriving DecidableEq, Repr

open PacketStatus

/-- Sender state: per-slot packet buffer and status arrays of length
SEQSPACE, window base, next sequence number, and the emulator's
window_full counter (sr.c lines 66-71 and 113). -/
structure AState where
  buffer : List Pkt
  status : List PacketStatus
  base : Nat
  nextseqnum : Nat
  window_full : Nat
deriving DecidableEq, Repr

/-- Result of a sender entry point: the new state, the packets passed to
tolayer3 in order, whether starttimer was called, and whether stoptimer
was called. -/
structure AOut where
  s : AState
  sent : List Pkt
  started : Bool
  stopped : Bool
deriving DecidableEq, Repr

/-- sr.c lines 193-207 (timer bookkeeping arrays are dead state and are
not modelled; window_full is the emulator counter, initially 0). -/
def A_init : AState :=
  ⟨List.replicate SEQSPACE pkt0, List.replicate SEQSPACE NOT_SENT, 0, 0, 0⟩

/-- The packet built by A_output (sr.c lines 88-92): seqnum = nextseqnum,
acknum = NOTINUSE, payload copied from the message, checksum computed
over the other fields. -/
def buildPkt (m : Msg) (ns : Nat) : Pkt :=
  let p : Pkt :=
    { seqnum := (ns : Int), acknum := NOTINUSE,
      payload := (List.range 20).map (fun i => m.data.getD i 0), checksum := 0 }
  { p with checksum := ComputeChecksum p }

/-- sr.c lines 77-115: if (nextseqnum + SEQSPACE - base) % SEQSPACE <
WINDOWSIZE, build and buffer the packet, mark the slot SENT_NOT_ACKED,
hand it to tolayer3, start the timer iff base == nextseqnum, and advance
nextseqnum; otherwise increment window_full. -/
def A_output (m : Msg) (s : AState) : AOut :=
  if (s.nextseqnum + SEQSPACE - s.base) % SEQSPACE < WINDOWSIZE then
    let sendpkt := buildPkt m s.nextseqnum
    { s := { s with
        buffer := s.buffer.set s.nextseqnum sendpkt,
        status := s.status.set s.nextseqnum SENT_NOT_ACKED,
        nextseqnum := (s.nextseqnum + 1) % SEQSPACE },
      sent := [sendpkt],
      started := s.base == s.nextseqnum,
      stopped := false }
  else
    { s := { s with window_full := s.window_full + 1 },
      sent := [], started := false, stopped := false }

/-- The while-loop of sr.c lines 144-149: while status[base] == ACKED,
reset the slot to NOT_SENT and advance base.  Each iteration turns the
slot at base into NOT_SENT, so the C loop performs at most SEQSPACE
iterations; running the recursion with fuel SEQSPACE reproduces it
exactly. -/
def slideA : Nat → AState → AState
  | 0, s => s
  | fuel + 1, s =>
    if s.status.getD s.base NOT_SENT = ACKED then
      slideA fuel
        { s with status := s.status.set s.base NOT_SENT,
                 base := (s.base + 1) % SEQSPACE }
    else s

/-- The scan of sr.c lines 151-159: is any of the WINDOWSIZE slots
starting at base still SENT_NOT_ACKED? -/
def hasUnacked (s : AState) : Bool :=
  (List.range WINDOWSIZE).any
    (fun i => decide (s.status.getD ((s.base + i) % SEQSPACE) NOT_SENT = SENT_NOT_ACKED))

/-- sr.c lines 121-170: drop corrupted ACKs; if acknum passes the window
test, set status[acknum] = ACKED (the C code indexes the status array
with a signed int, which is an out-of-bounds access for a negative
acknum; C attaches no behaviour to that case and the model makes it a
no-op), run the slide loop, and call stoptimer iff no slot in the window
is still SENT_NOT_ACKED; otherwise ignore the ACK. -/
def A_input (p : Pkt) (s : AState) : AOut :=
  if p.checksum ≠ ComputeChecksum p then ⟨s, [], false, false⟩
  else if srWindowTest p.acknum s.base then
    if 0 ≤ p.acknum then
      let s1 : AState := { s with status := s.status.set p.acknum.toNat ACKED }
      let s2 := slideA SEQSPACE s1
      ⟨s2, [], false, !hasUnacked s2⟩
    else ⟨s, [], false, false⟩
  else ⟨s, [], false, false⟩

/-- sr.c lines 173-188: resend every SENT_NOT_ACKED buffered packet in
the WINDOWSIZE slots starting at base, then restart the timer. -/
def A_timerinterrupt (s : AState) : AOut :=
  ⟨s,
   (List.range WINDOWSIZE).filterMap (fun i =>
     let idx := (s.base + i) % SEQSPACE
     if s.status.getD idx NOT_SENT = SENT_NOT_ACKED
     then some (s.buffer.getD idx pkt0) else none),
   true, false⟩

/-- Receiver state: per-slot packet cache and received flags of length
SEQSPACE, and the delivery window base (sr.c lines 72-74). -/
structure BState where
  B_buffer : List Pkt
  B_received : List Nat
  B_base : Nat
deriving DecidableEq, Repr

/-- Result of a receiver entry point: the new state, the ACK packets
passed to tolayer3, and the payloads passed to tolayer5 in order. -/
structure BOut where
  s : BState
  sent : List Pkt
  delivered : List (List Int)
deriving DecidableEq, Repr

/-- sr.c lines 268-278. -/
def B_init : BState :=
  ⟨List.replicate SEQSPACE pkt0, List.replicate SEQSPACE 0, 0⟩

/-- The ACK packet built by B_input (sr.c lines 242-247): seqnum 0,
acknum = received seqnum, zero payload, checksum over those fields. -/
def mkAck (a : Int) : Pkt :=
  let p : Pkt := { seqnum := 0, acknum := a, payload := List.replicate 20 0, checksum := 0 }
  { p with checksum := ComputeChecksum p }

/-- The while-loop of sr.c lines 252-258: while B_received[B_base] == 1,
deliver the buffered payload to tolayer5, clear the flag and advance
B_base.  As with `slideA`, each iteration clears the flag at B_base, so
fuel SEQSPACE reproduces the C loop exactly. -/
def deliverLoop : Nat → BState → BState × List (List Int)
  | 0, s => (s, [])
  | fuel + 1, s =>
    if s.B_received.getD s.B_base 0 = 1 then
      let pl := (s.B_buffer.getD s.B_base pkt0).payload
      let r := deliverLoop fuel
        { s with B_received := s.B_received.set s.B_base 0,
                 B_base := (s.B_base + 1) % SEQSPACE }
      (r.1, pl :: r.2)
    else (s, [])

/-- sr.c lines 216-264: drop corrupted packets silently; if seqnum passes
the window test, cache the packet in its slot unless already cached (the
same signed-index remark as in `A_input` applies for a negative seqnum),
send an ACK carrying that seqnum, and deliver in-order cached payloads
from B_base onward; otherwise ignore the packet. -/
def B_input (p : Pkt) (s : BState) : BOut :=
  if p.checksum ≠ ComputeChecksum p then ⟨s, [], []⟩
  else if srWindowTest p.seqnum s.B_base then
    if 0 ≤ p.seqnum then
      let sq := p.seqnum.toNat
      let s1 : BState :=
        if s.B_received.getD sq 0 = 0 then
          { s with B_buffer := s.B_buffer.set sq p, B_received := s.B_received.set sq 1 }
        else s
      let r := deliverLoop SEQSPACE s1
      ⟨r.1, [mkAck p.seqnum], r.2⟩
    else ⟨s, [], []⟩
  else ⟨s, [], []⟩

/-- An event driving the sender state machine. -/
inductive AEvent where
  | message (m : Msg)
  | ack (p : Pkt)
  | timer
deriving Repr

/-- The state transition of one sender event (emissions discarded). -/
def AStep (s : AState) : AEvent → AState
  | .message m => (A_output m s).s
  | .ack p => (A_input p s).s
  | .timer => (A_timerinterrupt s).s

/-- The sender state after a sequence of events starting from A_init. -/
def runA (evs : List AEvent) : AState := evs.foldl AStep A_init

/-- One receiver step inside `runB`: feed a packet, append its
deliveries. -/
def runBStep (st : BState × List (List Int)) (p : Pkt) : BState × List (List Int) :=
  let r := B_input p st.1
  (r.s, st.2 ++ r.delivered)

/-- The receiver state and the concatenated list of payloads delivered
to tolayer5 after processing a sequence of packets from B_init. -/
def runB (ps : List Pkt) : BState × List (List Int) :=
  ps.foldl runBStep (B_init, [])

/-- Number of slots currently in status SENT_NOT_ACKED. -/
def sentCount (s : AState) : Nat :=
  ((Finset.range SEQSPACE).filter
    (fun i => s.status.getD i NOT_SENT = SENT_NOT_ACKED)).card

/-- Modular distance from base to nextseqnum: the number of sequence
numbers in the segment [base, nextseqnum), exactly the quantity the
A_output guard computes. -/
def distA (s : AState) : Nat := (s.nextseqnum + SEQSPACE - s.base) % SEQSPACE

/-- Sender invariant: well-formed array and index bounds, every
SENT_NOT_ACKED slot lies in the segment [base, nextseqnum), and either
that segment has at most WINDOWSIZE slots or no slot is SENT_NOT_ACKED
at all (the latter covers the states the slide loop can produce by
moving base past nextseqnum). -/
def InvA (s : AState) : Prop :=
  s.status.length = SEQSPACE ∧ s.base < SEQSPACE ∧ s.nextseqnum < SEQSPACE ∧
  (∀ i, i < SEQSPACE → s.status.getD i NOT_SENT = SENT_NOT_ACKED →
      (i + SEQSPACE - s.base) % SEQSPACE < distA s) ∧
  (distA s ≤ WINDOWSIZE ∨
      ∀ i, i < SEQSPACE → s.status.getD i NOT_SENT ≠ SENT_NOT_ACKED)

/-- Receiver invariant: well-formed arrays, base in range, and the last
sequence number SEQSPACE - 1 is never flagged received (no value of
B_base lets it pass the window test, so B_base can never wrap). -/
def InvB (s : BState) : Prop :=
  s.B_received.length = SEQSPACE ∧ s.B_buffer.length = SEQSPACE ∧
  s.B_base < SEQSPACE ∧ s.B_received.getD (SEQSPACE - 1) 0 ≠ 1

/-- Every flagged receiver slot k caches an uncorrupted packet with
sequence number k satisfying P (instantiated below with membership in
the processed input list). -/
def slotsOK (P : Pkt → Prop) (s : BState) : Prop :=
  ∀ k, k < SEQSPACE → s.B_received.getD k 0 = 1 →
    P (s.B_buffer.getD k pkt0) ∧
    (s.B_buffer.getD k pkt0).checksum = ComputeChecksum (s.B_buffer.getD k pkt0) ∧
    (s.B_buffer.getD k pkt0).seqnum = (k : Int)

/-- A 20-byte message of ones, used as a concrete test input. -/
def msg1 : Msg := ⟨List.replicate 20 1⟩

/-- Sender state after one A_output from A_init: packet 0 is
SENT_NOT_ACKED, base = 0, nextseqnum = 1. -/
def sA1 : AState := (A_output msg1 A_init).s

/-- A valid ACK packet with acknum 1 (checksum 0 + 1 + 0 = 1). -/
def pa1 : Pkt := ⟨0, 1, 1, List.replicate 20 0⟩

/-- A valid ACK packet with acknum 0 (checksum 0). -/
def pa0 : Pkt := ⟨0, 0, 0, List.replicate 20 0⟩

/-- A corrupted packet: stored checksum 999, recomputed checksum 0. -/
def badPkt : Pkt := ⟨0, 0, 999, List.replicate 20 0⟩

/-- A valid data packet with seqnum 0 (checksum 0 - 1 + 60 = 59). -/
def gp0 : Pkt := ⟨0, -1, 59, List.replicate 20 3⟩

/-- A valid data packet with seqnum 1 (checksum 1 - 1 + 40 = 40). -/
def gp1 : Pkt := ⟨1, -1, 40, List.replicate 20 2⟩

/-- Receiver result of the first delivery of gp0 to B_input. -/
def bO1 : BOut := B_input gp0 B_init

/-- Receiver result of delivering gp0 to B_input a second time. -/
def bO2 : BOut := B_input gp0 bO1.s

/-- Sender state with WINDOWSIZE packets outstanding (base 0,
nextseqnum 6): a full window. -/
def fullA : AState :=
  ⟨List.replicate SEQSPACE pkt0, List.replicate SEQSPACE SENT_NOT_ACKED, 0, 6, 0⟩

theorem getD_set {α : Type} (l : List α) (n m : Nat) (a d : α) :
    (l.set n a).getD m d = if n = m ∧ n < l.length then a else l.getD m d := by
  induction l generalizing n m with
  | nil => simp
  | cons x xs ih =>
    match n, m with
    | 0, 0 => simp
    | 0, m + 1 => simp
    | n + 1, 0 => simp
    | n + 1, m + 1 =>
      simp only [List.set, List.getD_cons_succ, ih n m, List.length_cons]
      by_cases h : n = m ∧ n < xs.length
      · rw [if_pos h, if_pos (by omega)]
      · rw [if_neg h, if_neg (by omega)]

theorem getD_replicate {α : Type} (n m : Nat) (a d : α) :
    (List.replicate n a).getD m d = if m < n then a else d := by
  induction n generalizing m with
  | zero => simp
  | succ n ih =>
    match m with
    | 0 => simp [List.replicate]
    | m + 1 =>
      simp only [List.replicate, List.getD_cons_succ, ih m]
      by_cases h : m < n
      · rw [if_pos h, if_pos (by omega)]
      · rw [if_neg h, if_neg (by omega)]

theorem getD_append_left {α : Type} (l₁ l₂ : List α) (n : Nat) (d : α)
    (h : n < l₁.length) : (l₁ ++ l₂).getD n d = l₁.getD n d := by
  induction l₁ generalizing n with
  | nil => simp at h
  | cons x xs ih =>
    match n with
    | 0 => simp
    | n + 1 =>
      simp only [List.cons_append, List.getD_cons_succ]
      exact ih n (by simpa using h)

theorem getD_append_right {α : Type} (l₁ l₂ : List α) (n : Nat) (d : α)
    (h : l₁.length ≤ n) : (l₁ ++ l₂).getD n d = l₂.getD (n - l₁.length) d := by
  induction l₁ generalizing n with
  | nil => simp
  | cons x xs ih =>
    match n with
    | 0 => simp at h
    | n + 1 =>
      simp only [List.cons_append, List.getD_cons_succ, List.length_cons]
      rw [ih n (by simpa using h)]
      congr 1
      omega

theorem foldl_add_map (f : Nat → Int) : ∀ (l : List Nat) (a : Int),
    l.foldl (fun c i => c + f i) a = a + (l.map f).sum
  | [], a => by simp
  | i :: l, a => by
    simp only [List.foldl_cons, List.map_cons, List.sum_cons,
      foldl_add_map f l (a + f i)]
    ring

/-- C9: ComputeChecksum returns exactly seqnum + acknum + the sum of the
20 payload bytes; it is a pure function, and IsCorrupted returns true
iff the stored checksum field differs from ComputeChecksum of the
packet. -/
theorem C9_checksum_spec (p : Pkt) :
    ComputeChecksum p =
      p.seqnum + p.acknum + ((List.range 20).map (fun i => p.payload.getD i 0)).sum ∧
    (IsCorrupted p = true ↔ p.checksum ≠ ComputeChecksum p) := by
  constructor
  · rw [ComputeChecksum, foldl_add_map]
  · rw [IsCorrupted]
    split
    · simpa using (by assumption : p.checksum = ComputeChecksum p)
    · simpa using (by assumption : ¬ p.checksum = ComputeChecksum p)

/-- C1: the window-membership test the code actually performs
(srWindowTest) differs from the modular-distance definition inWindow the
spec mandates: at base 60 the code accepts sequence number 20 whose
modular distance is 24 ≥ 6, and at base 58 it rejects sequence number 58
whose modular distance is 0 < 6. -/
theorem C1_window_test_code_vs_spec :
    srWindowTest 20 60 = true ∧ inWindow 20 60 6 64 = false ∧
    srWindowTest 58 58 = false ∧ inWindow 58 58 6 64 = true := by decide

/-- C2: a packet whose stored checksum differs from the recomputed one
is ignored by both A_input and B_input: the state is returned unchanged
and no packet is sent, nothing is delivered, and no timer call is
made. -/
theorem C2_corrupted_ignored (p : Pkt) (sa : AState) (sb : BState)
    (h : p.checksum ≠ ComputeChecksum p) :
    A_input p sa = ⟨sa, [], false, false⟩ ∧ B_input p sb = ⟨sb, [], []⟩ := by
  constructor
  · rw [A_input, if_pos h]
  · rw [B_input, if_pos h]

/-- Witness for C2 at a concrete corrupted packet and the initial
states. -/
theorem C2_corrupted_ignored_witness :
    badPkt.checksum ≠ ComputeChecksum badPkt ∧
    A_input badPkt A_init = ⟨A_init, [], false, false⟩ ∧
    B_input badPkt B_init = ⟨B_init, [], []⟩ :=
  ⟨by decide, (C2_corrupted_ignored badPkt A_init B_init (by decide)).1,
    (C2_corrupted_ignored badPkt A_init B_init (by decide)).2⟩

/-- C5: when (nextseqnum + SEQSPACE - base) % SEQSPACE, the number of
outstanding sequence numbers, equals WINDOWSIZE, A_output only
increments window_full: no packet is sent, no timer started, and base,
nextseqnum, buffer and statuses are unchanged. -/
theorem C5_window_full_reject (m : Msg) (s : AState)
    (h : (s.nextseqnum + SEQSPACE - s.base) % SEQSPACE = WINDOWSIZE) :
    A_output m s =
      ⟨{ s with window_full := s.window_full + 1 }, [], false, false⟩ := by
  rw [A_output, if_neg (by omega)]

/-- Witness for C5 at a concrete full-window state. -/
theorem C5_window_full_reject_witness :
    (fullA.nextseqnum + SEQSPACE - fullA.base) % SEQSPACE = WINDOWSIZE ∧
    A_output msg1 fullA =
      ⟨{ fullA with window_full := fullA.window_full + 1 }, [], false, false⟩ :=
  ⟨by decide, C5_window_full_reject msg1 fullA (by decide)⟩

/-- Counterexample to C3 as stated: from the reachable state sA1 (one
packet sent), the valid in-window ACK pa1 with acknum 1 addresses a slot
whose status is NOT_SENT, yet A_input marks that slot ACKED, changing
its status; the claim says such an ACK changes no slot status. -/
theorem C3_ack_marks_not_sent_counterexample :
    pa1.checksum = ComputeChecksum pa1 ∧
    srWindowTest pa1.acknum sA1.base = true ∧
    sA1.status.getD 1 NOT_SENT = NOT_SENT ∧
    (A_input pa1 sA1).s.status.getD 1 NOT_SENT = ACKED := by decide

/-- Counterexample to C4 as stated: the second of two back-to-back sends
from A_init is accepted (window not full, a packet goes to tolayer3) but
starttimer is not called, because the code only starts the timer when
base == nextseqnum; the claim says the timer is started for every
accepted send. -/
theorem C4_no_timer_on_second_send_counterexample :
    ((sA1.nextseqnum + SEQSPACE - sA1.base) % SEQSPACE < WINDOWSIZE) ∧
    (A_output msg1 sA1).sent ≠ [] ∧
    (A_output msg1 sA1).started = false := by
  refine ⟨by decide, by decide, by decide⟩

/-- Counterexample to C8 as stated: the valid packet gp0 with seqnum 0
delivered twice to a fresh receiver yields one ACK in total, not two:
the first call delivers it and advances B_base to 1, after which seqnum
0 no longer passes the window test and the duplicate is dropped without
an ACK. -/
theorem C8_duplicate_at_base_counterexample :
    gp0.checksum = ComputeChecksum gp0 ∧
    srWindowTest gp0.seqnum B_init.B_base = true ∧
    bO1.sent.length + bO2.sent.length = 1 := by decide

theorem slideA_of_not_acked (fuel : Nat) (s : AState)
    (h : s.status.getD s.base NOT_SENT ≠ ACKED) : slideA fuel s = s := by
  cases fuel with
  | zero => rfl
  | succ n => rw [slideA, if_neg h]

theorem deliverLoop_of_not_received (fuel : Nat) (s : BState)
    (h : s.B_received.getD s.B_base 0 ≠ 1) : deliverLoop fuel s = (s, []) := by
  cases fuel with
  | zero => rfl
  | succ n => rw [deliverLoop, if_neg h]

theorem A_input_accept (s : AState) (p : Pkt)
    (hv : ¬ p.checksum ≠ ComputeChecksum p)
    (hw : srWindowTest p.acknum s.base = true) (ha : 0 ≤ p.acknum) :
    A_input p s =
      ⟨slideA SEQSPACE { s with status := s.status.set p.acknum.toNat ACKED },
        [], false,
        !hasUnacked
          (slideA SEQSPACE { s with status := s.status.set p.acknum.toNat ACKED })⟩ := by
  rw [A_input, if_neg hv, if_pos hw, if_pos ha]

theorem windowTest_bounds (x : Int) (b : Nat) (hb : b < SEQSPACE)
    (hw : srWindowTest x b = true) (_hx : 0 ≤ x) :
    x.toNat < SEQSPACE ∧ x.toNat ≠ SEQSPACE - 1 := by
  rw [srWindowTest] at hw
  rw [Bool.or_eq_true, Bool.and_eq_true, Bool.and_eq_true] at hw
  simp only [decide_eq_true_eq] at hw
  simp only [SEQSPACE, WINDOWSIZE] at hw hb ⊢
  rcases hw with ⟨hw1, hw2⟩ | ⟨hw1, hw2⟩
  · omega
  · have hmod : (b + 6) % 64 < 64 := Nat.mod_lt _ (by omega)
    omega

/-- C3 amended: A_input on an uncorrupted ACK ignores it when acknum
fails the code's window test; when acknum passes the test (and is
nonnegative, so the array access is defined) the slot is marked ACKED
regardless of its previous status, after which the slide loop runs; in
particular, when acknum differs from base and the base slot is not
ACKED, the acknum slot ends up ACKED (even if it was NOT_SENT), base is
unchanged and every other slot keeps its status. -/
theorem C3_ack_marking_amended (s : AState) (p : Pkt)
    (hv : p.checksum = ComputeChecksum p) :
    (srWindowTest p.acknum s.base = false → A_input p s = ⟨s, [], false, false⟩) ∧
    (srWindowTest p.acknum s.base = true → 0 ≤ p.acknum →
      (A_input p s).s =
        slideA SEQSPACE { s with status := s.status.set p.acknum.toNat ACKED } ∧
      (p.acknum.toNat ≠ s.base → s.status.getD s.base NOT_SENT ≠ ACKED →
        p.acknum.toNat < s.status.length →
        (A_input p s).s.status.getD p.acknum.toNat NOT_SENT = ACKED ∧
        (A_input p s).s.base = s.base ∧
        ∀ j, j ≠ p.acknum.toNat →
          (A_input p s).s.status.getD j NOT_SENT = s.status.getD j NOT_SENT)) := by
  have hv' : ¬ p.checksum ≠ ComputeChecksum p := by simpa using hv
  constructor
  · intro hwf
    rw [A_input, if_neg hv', if_neg (by simp [hwf])]
  · intro hw ha
    have hacc := A_input_accept s p hv' hw ha
    refine ⟨by rw [hacc], ?_⟩
    intro hne hnack hlt
    have hmark : ((s.status.set p.acknum.toNat ACKED).getD s.base NOT_SENT) ≠ ACKED := by
      rw [getD_set, if_neg (fun hh => hne hh.1)]
      exact hnack
    have hslide :
        slideA SEQSPACE { s with status := s.status.set p.acknum.toNat ACKED } =
          { s with status := s.status.set p.acknum.toNat ACKED } :=
      slideA_of_not_acked SEQSPACE _ hmark
    have hs2 : (A_input p s).s = { s with status := s.status.set p.acknum.toNat ACKED } := by
      rw [hacc]; exact hslide
    rw [hs2]
    refine ⟨?_, rfl, ?_⟩
    · show (s.status.set p.acknum.toNat ACKED).getD p.acknum.toNat NOT_SENT = ACKED
      rw [getD_set, if_pos ⟨rfl, hlt⟩]
    · intro j hj
      show (s.status.set p.acknum.toNat ACKED).getD j NOT_SENT = s.status.getD j NOT_SENT
      rw [getD_set, if_neg (fun hh => hj hh.1.symm)]

/-- Witness for the amended C3 at the concrete reachable state sA1 and
the valid in-window ACK pa1 addressing the NOT_SENT slot 1. -/
theorem C3_ack_marking_amended_witness :
    (A_input pa1 sA1).s.status.getD pa1.acknum.toNat NOT_SENT = ACKED ∧
    (A_input pa1 sA1).s.base = sA1.base :=
  ⟨(((C3_ack_marking_amended sA1 pa1 (by decide)).2 (by decide) (by decide)).2
      (by decide) (by decide) (by decide)).1,
   (((C3_ack_marking_amended sA1 pa1 (by decide)).2 (by decide) (by decide)).2
      (by decide) (by decide) (by decide)).2.1⟩

/-- C4 amended: when the window is not full, A_output builds the packet
with seqnum = nextseqnum, the 20 message bytes and a checksum equal to
ComputeChecksum of the packet, stores it in the slot for nextseqnum,
marks that slot SENT_NOT_ACKED, hands exactly that packet to tolayer3,
advances nextseqnum mod SEQSPACE, and leaves base, window_full and the
other slots unchanged; but it starts the timer only when base equals
nextseqnum (a single shared timer started when no packet was
outstanding), not on every send as the claim states. -/
theorem C4_send_amended (m : Msg) (s : AState)
    (hw : (s.nextseqnum + SEQSPACE - s.base) % SEQSPACE < WINDOWSIZE)
    (hns : s.nextseqnum < s.status.length) (hnb : s.nextseqnum < s.buffer.length) :
    (A_output m s).sent = [buildPkt m s.nextseqnum] ∧
    ((A_output m s).started = true ↔ s.base = s.nextseqnum) ∧
    (buildPkt m s.nextseqnum).seqnum = (s.nextseqnum : Int) ∧
    (buildPkt m s.nextseqnum).payload = (List.range 20).map (fun i => m.data.getD i 0) ∧
    (buildPkt m s.nextseqnum).checksum = ComputeChecksum (buildPkt m s.nextseqnum) ∧
    (A_output m s).s.buffer.getD s.nextseqnum pkt0 = buildPkt m s.nextseqnum ∧
    (A_output m s).s.status.getD s.nextseqnum NOT_SENT = SENT_NOT_ACKED ∧
    (A_output m s).s.nextseqnum = (s.nextseqnum + 1) % SEQSPACE ∧
    (A_output m s).s.base = s.base ∧
    (A_output m s).s.window_full = s.window_full ∧
    (∀ j, j ≠ s.nextseqnum →
      (A_output m s).s.status.getD j NOT_SENT = s.status.getD j NOT_SENT) := by
  have hacc : A_output m s =
      ⟨{ s with
          buffer := s.buffer.set s.nextseqnum (buildPkt m s.nextseqnum),
          status := s.status.set s.nextseqnum SENT_NOT_ACKED,
          nextseqnum := (s.nextseqnum + 1) % SEQSPACE },
        [buildPkt m s.nextseqnum], s.base == s.nextseqnum, false⟩ := by
    rw [A_output, if_pos hw]
  rw [hacc]
  refine ⟨rfl, beq_iff_eq, rfl, rfl, rfl, ?_, ?_, rfl, rfl, rfl, ?_⟩
  · show (s.buffer.set s.nextseqnum (buildPkt m s.nextseqnum)).getD s.nextseqnum pkt0 =
      buildPkt m s.nextseqnum
    rw [getD_set, if_pos ⟨rfl, hnb⟩]
  · show (s.status.set s.nextseqnum SENT_NOT_ACKED).getD s.nextseqnum NOT_SENT =
      SENT_NOT_ACKED
    rw [getD_set, if_pos ⟨rfl, hns⟩]
  · intro j hj
    show (s.status.set s.nextseqnum SENT_NOT_ACKED).getD j NOT_SENT =
      s.status.getD j NOT_SENT
    rw [getD_set, if_neg (fun hh => hj hh.1.symm)]

/-- Witness for the amended C4 at A_init and a concrete message. -/
theorem C4_send_amended_witness :
    (A_output msg1 A_init).sent = [buildPkt msg1 A_init.nextseqnum] ∧
    ((A_output msg1 A_init).started = true ↔ A_init.base = A_init.nextseqnum) :=
  ⟨(C4_send_amended msg1 A_init (by decide) (by decide) (by decide)).1,
   (C4_send_amended msg1 A_init (by decide) (by decide) (by decide)).2.1⟩

/-- C8 amended: a valid data packet whose seqnum passes the window test,
is not yet cached, and differs from B_base, delivered twice with no
other events between, is cached exactly once, delivered to the
application zero times (at most once), and acknowledged on each arrival
with an ACK carrying acknum = seqnum and an all-zero payload, two ACKs
in total; the original claim fails only when seqnum equals B_base, where
the first arrival slides the window and the duplicate gets no ACK. -/
theorem C8_duplicate_reack_amended (s : BState) (p : Pkt)
    (hlen : s.B_received.length = SEQSPACE) (hb : s.B_base < SEQSPACE)
    (hv : p.checksum = ComputeChecksum p)
    (hw : srWindowTest p.seqnum s.B_base = true) (hpos : 0 ≤ p.seqnum)
    (hne : p.seqnum.toNat ≠ s.B_base)
    (hnotc : s.B_received.getD p.seqnum.toNat 0 = 0)
    (hbase0 : s.B_received.getD s.B_base 0 = 0) :
    (B_input p s).s.B_received.getD p.seqnum.toNat 0 = 1 ∧
    (B_input p (B_input p s).s).s = (B_input p s).s ∧
    (B_input p s).delivered = [] ∧
    (B_input p (B_input p s).s).delivered = [] ∧
    (B_input p s).sent = [mkAck p.seqnum] ∧
    (B_input p (B_input p s).s).sent = [mkAck p.seqnum] ∧
    (mkAck p.seqnum).acknum = p.seqnum ∧
    (mkAck p.seqnum).payload = List.replicate 20 0 := by
  have hv' : ¬ p.checksum ≠ ComputeChecksum p := by simpa using hv
  have hsq : p.seqnum.toNat < SEQSPACE := (windowTest_bounds p.seqnum s.B_base hb hw hpos).1
  set s1 : BState :=
    { s with B_buffer := s.B_buffer.set p.seqnum.toNat p,
             B_received := s.B_received.set p.seqnum.toNat 1 } with hs1def
  have hbase1 : s1.B_received.getD s1.B_base 0 = 0 := by
    show (s.B_received.set p.seqnum.toNat 1).getD s.B_base 0 = 0
    rw [getD_set, if_neg (fun hh => hne hh.1)]
    exact hbase0
  have h1 : B_input p s = ⟨s1, [mkAck p.seqnum], []⟩ := by
    rw [B_input, if_neg hv', if_pos hw, if_pos hpos]
    simp only []
    rw [if_pos hnotc, ← hs1def,
      deliverLoop_of_not_received SEQSPACE s1 (by rw [hbase1]; decide)]
  have hcached : s1.B_received.getD p.seqnum.toNat 0 = 1 := by
    show (s.B_received.set p.seqnum.toNat 1).getD p.seqnum.toNat 0 = 1
    rw [getD_set, if_pos ⟨rfl, by omega⟩]
  have h2 : B_input p s1 = ⟨s1, [mkAck p.seqnum], []⟩ := by
    rw [B_input, if_neg hv', if_pos hw, if_pos hpos]
    simp only []
    rw [if_neg (by rw [hcached]; decide),
      deliverLoop_of_not_received SEQSPACE s1 (by rw [hbase1]; decide)]
  rw [h1]
  rw [h2]
  exact ⟨hcached, rfl, rfl, rfl, rfl, rfl, rfl, rfl⟩

/-- Witness for the amended C8: packet gp1 with seqnum 1 delivered twice
to a fresh receiver is re-ACKed both times and never delivered. -/
theorem C8_duplicate_reack_amended_witness :
    (B_input gp1 B_init).s.B_received.getD gp1.seqnum.toNat 0 = 1 ∧
    (B_input gp1 (B_input gp1 B_init).s).sent = [mkAck gp1.seqnum] ∧
    (B_input gp1 B_init).delivered = [] ∧
    (B_input gp1 (B_input gp1 B_init).s).delivered = [] := by
  have h := C8_duplicate_reack_amended B_init gp1 (by decide) (by decide)
    (by decide) (by decide) (by decide) (by decide) (by decide) (by decide)
  exact ⟨h.1, h.2.2.2.2.2.1, h.2.2.1, h.2.2.2.1⟩

/-- C10: A_input calls stoptimer iff it accepted the ACK (uncorrupted,
window test passes) and after the slide no slot in the WINDOWSIZE
window starting at the new base is SENT_NOT_ACKED; a corrupted or
out-of-window ACK never stops the timer. -/
theorem C10_stoptimer_iff_no_unacked (s : AState) (p : Pkt) :
    (p.checksum ≠ ComputeChecksum p → (A_input p s).stopped = false) ∧
    (srWindowTest p.acknum s.base = false → (A_input p s).stopped = false) ∧
    (p.checksum = ComputeChecksum p → srWindowTest p.acknum s.base = true →
      0 ≤ p.acknum →
      ((A_input p s).stopped = true ↔
        ∀ i, i < WINDOWSIZE →
          (A_input p s).s.status.getD
            (((A_input p s).s.base + i) % SEQSPACE) NOT_SENT ≠ SENT_NOT_ACKED)) := by
  refine ⟨?_, ?_, ?_⟩
  · intro h
    rw [A_input, if_pos h]
  · intro hwf
    by_cases hc : p.checksum ≠ ComputeChecksum p
    · rw [A_input, if_pos hc]
    · rw [A_input, if_neg hc, if_neg (by simp [hwf])]
  · intro hv hw ha
    have hacc := A_input_accept s p (by simpa using hv) hw ha
    rw [hacc]
    show (!hasUnacked (slideA SEQSPACE _)) = true ↔ _
    rw [Bool.not_eq_true']
    simp only [hasUnacked, List.any_eq_false, List.mem_range,
      decide_eq_true_eq]

/-- Witness for C10: after A_init, a valid ACK 0 marks slot 0, slides
base to 1, finds no SENT_NOT_ACKED slot in the window and stops the
timer. -/
theorem C10_stoptimer_iff_no_unacked_witness :
    (A_input pa0 A_init).stopped = true :=
  ((C10_stoptimer_iff_no_unacked A_init pa0).2.2 (by decide) (by decide)
    (by decide)).mpr (by decide)

theorem invA_init : InvA A_init := by
  unfold InvA
  decide

theorem invA_mark (s : AState) (k : Nat) (h : InvA s) :
    InvA { s with status := s.status.set k ACKED } := by
  obtain ⟨h1, h2, h3, h4, h5⟩ := h
  refine ⟨by simpa using h1, h2, h3, ?_, ?_⟩
  · intro i hi hs
    have hs' : (s.status.set k ACKED).getD i NOT_SENT = SENT_NOT_ACKED := hs
    rw [getD_set] at hs'
    split at hs'
    · exact absurd hs' (by decide)
    · exact h4 i hi hs'
  · rcases h5 with h5 | h5
    · exact Or.inl h5
    · refine Or.inr ?_
      intro i hi
      show (s.status.set k ACKED).getD i NOT_SENT ≠ SENT_NOT_ACKED
      rw [getD_set]
      split
      · decide
      · exact h5 i hi

theorem invA_slide_step (s : AState) (h : InvA s)
    (hb : s.status.getD s.base NOT_SENT = ACKED) :
    InvA { s with status := s.status.set s.base NOT_SENT,
                  base := (s.base + 1) % SEQSPACE } := by
  obtain ⟨h1, h2, h3, h4, h5⟩ := h
  have hb' : (s.base + 1) % SEQSPACE < SEQSPACE :=
    Nat.mod_lt _ (by rw [SEQSPACE]; omega)
  refine ⟨by simpa using h1, hb', h3, ?_, ?_⟩
  · intro i hi hs
    have hs' : (s.status.set s.base NOT_SENT).getD i NOT_SENT = SENT_NOT_ACKED := hs
    rw [getD_set] at hs'
    split at hs'
    · exact absurd hs' (by decide)
    · have hne : i ≠ s.base := by
        intro e
        rw [e] at hs'
        rw [hs'] at hb
        exact absurd hb (by decide)
      have hold := h4 i hi hs'
      rw [distA] at hold
      show (i + SEQSPACE - ((s.base + 1) % SEQSPACE)) % SEQSPACE <
        (s.nextseqnum + SEQSPACE - ((s.base + 1) % SEQSPACE)) % SEQSPACE
      simp only [SEQSPACE] at hi h2 h3 hold ⊢
      omega
  · rcases h5 with h5 | h5
    · by_cases hz : distA s = 0
      · refine Or.inr ?_
        intro i hi
        show (s.status.set s.base NOT_SENT).getD i NOT_SENT ≠ SENT_NOT_ACKED
        rw [getD_set]
        split
        · decide
        · intro hs
          have hphi := h4 i hi hs
          rw [hz] at hphi
          exact absurd hphi (by omega)
      · refine Or.inl ?_
        show (s.nextseqnum + SEQSPACE - ((s.base + 1) % SEQSPACE)) % SEQSPACE ≤ WINDOWSIZE
        rw [distA] at h5 hz
        simp only [SEQSPACE, WINDOWSIZE] at h2 h3 h5 hz ⊢
        omega
    · refine Or.inr ?_
      intro i hi
      show (s.status.set s.base NOT_SENT).getD i NOT_SENT ≠ SENT_NOT_ACKED
      rw [getD_set]
      split
      · decide
      · exact h5 i hi

theorem invA_slideA (fuel : Nat) : ∀ (s : AState), InvA s → InvA (slideA fuel s) := by
  induction fuel with
  | zero => intro s h; exact h
  | succ n ih =>
    intro s h
    by_cases hc : s.status.getD s.base NOT_SENT = ACKED
    · rw [slideA, if_pos hc]
      exact ih _ (invA_slide_step s h hc)
    · rw [slideA, if_neg hc]
      exact h

theorem invA_A_output (m : Msg) (s : AState) (h : InvA s) :
    InvA (A_output m s).s := by
  obtain ⟨h1, h2, h3, h4, h5⟩ := h
  by_cases hw : (s.nextseqnum + SEQSPACE - s.base) % SEQSPACE < WINDOWSIZE
  · rw [A_output, if_pos hw]
    refine ⟨by simpa using h1, h2,
      Nat.mod_lt _ (by rw [SEQSPACE]; omega), ?_, Or.inl ?_⟩
    · intro i hi hs
      have hs' : (s.status.set s.nextseqnum SENT_NOT_ACKED).getD i NOT_SENT =
          SENT_NOT_ACKED := hs
      rw [getD_set] at hs'
      show (i + SEQSPACE - s.base) % SEQSPACE <
        (((s.nextseqnum + 1) % SEQSPACE) + SEQSPACE - s.base) % SEQSPACE
      split at hs'
      · rename_i hcond
        obtain ⟨he, _⟩ := hcond
        rw [← he]
        simp only [SEQSPACE, WINDOWSIZE] at h2 h3 hw ⊢
        omega
      · have hold := h4 i hi hs'
        rw [distA] at hold
        simp only [SEQSPACE, WINDOWSIZE] at h2 h3 hw hi hold ⊢
        omega
    · show (((s.nextseqnum + 1) % SEQSPACE) + SEQSPACE - s.base) % SEQSPACE ≤ WINDOWSIZE
      simp only [SEQSPACE, WINDOWSIZE] at h2 h3 hw ⊢
      omega
  · rw [A_output, if_neg hw]
    exact ⟨h1, h2, h3, h4, h5⟩

theorem invA_A_input (p : Pkt) (s : AState) (h : InvA s) :
    InvA (A_input p s).s := by
  by_cases hc : p.checksum ≠ ComputeChecksum p
  · rw [A_input, if_pos hc]
    exact h
  · by_cases hw : srWindowTest p.acknum s.base = true
    · by_cases ha : 0 ≤ p.acknum
      · rw [A_input_accept s p hc hw ha]
        exact invA_slideA SEQSPACE _ (invA_mark s _ h)
      · rw [A_input, if_neg hc, if_pos hw, if_neg ha]
        exact h
    · rw [A_input, if_neg hc, if_neg hw]
      exact h

theorem invA_runA (evs : List AEvent) : ∀ (s : AState), InvA s → InvA (evs.foldl AStep s) := by
  induction evs with
  | nil => intro s h; exact h
  | cons ev evs ih =>
    intro s h
    rw [List.foldl_cons]
    refine ih _ ?_
    cases ev with
    | message m => exact invA_A_output m s h
    | ack p => exact invA_A_input p s h
    | timer => exact h

theorem sentCount_le_of_invA (s : AState) (h : InvA s) :
    sentCount s ≤ WINDOWSIZE := by
  obtain ⟨h1, h2, h3, h4, h5⟩ := h
  rcases h5 with h5 | h5
  · have hmaps : ∀ i ∈ (Finset.range SEQSPACE).filter
        (fun i => s.status.getD i NOT_SENT = SENT_NOT_ACKED),
        (i + SEQSPACE - s.base) % SEQSPACE ∈ Finset.range (distA s) := by
      intro i hi
      simp only [Finset.mem_filter, Finset.mem_range] at hi
      exact Finset.mem_range.mpr (h4 i hi.1 hi.2)
    have hinj : Set.InjOn (fun i => (i + SEQSPACE - s.base) % SEQSPACE)
        ↑((Finset.range SEQSPACE).filter
          (fun i => s.status.getD i NOT_SENT = SENT_NOT_ACKED)) := by
      intro i hi j hj he
      simp only [Finset.coe_filter, Set.mem_setOf_eq, Finset.mem_range] at hi hj
      simp only [SEQSPACE] at hi hj he h2
      omega
    have hcard := Finset.card_le_card_of_injOn
      (fun i => (i + SEQSPACE - s.base) % SEQSPACE) hmaps hinj
    rw [Finset.card_range] at hcard
    rw [sentCount]
    exact hcard.trans h5
  · have hempty : ((Finset.range SEQSPACE).filter
        (fun i => s.status.getD i NOT_SENT = SENT_NOT_ACKED)) = ∅ := by
      apply Finset.filter_eq_empty_iff.mpr
      intro i hi
      exact h5 i (Finset.mem_range.mp hi)
    rw [sentCount, hempty]
    simp

/-- C6: in every sender state reachable from A_init by any sequence of
A_output, A_input and A_timerinterrupt calls, with arbitrary messages
and arbitrary (possibly corrupted) ACK packets, at most WINDOWSIZE of
the SEQSPACE slot statuses are SENT_NOT_ACKED simultaneously. -/
theorem C6_sender_window_bound (evs : List AEvent) :
    sentCount (runA evs) ≤ WINDOWSIZE :=
  sentCount_le_of_invA _ (invA_runA evs A_init invA_init)

/-- Witness for C6 at the empty event list. -/
theorem C6_sender_window_bound_witness :
    sentCount (runA []) ≤ WINDOWSIZE :=
  C6_sender_window_bound []

/-- Witness for C9 at a concrete packet. -/
theorem C9_checksum_spec_witness :
    ComputeChecksum gp0 =
      gp0.seqnum + gp0.acknum +
        ((List.range 20).map (fun i => gp0.payload.getD i 0)).sum ∧
    (IsCorrupted gp0 = true ↔ gp0.checksum ≠ ComputeChecksum gp0) :=
  C9_checksum_spec gp0

theorem invB_init : InvB B_init := by
  unfold InvB
  decide

theorem slotsOK_init (P : Pkt → Prop) : slotsOK P B_init := by
  intro k hk h1
  exfalso
  have h1' : (List.replicate SEQSPACE (0 : Nat)).getD k 0 = 1 := h1
  rw [getD_replicate] at h1'
  split at h1' <;> exact absurd h1' (by decide)

theorem deliverLoop_spec (fuel : Nat) : ∀ (s : BState),
    s.B_received.length = SEQSPACE → s.B_base < SEQSPACE →
    s.B_received.getD (SEQSPACE - 1) 0 ≠ 1 → SEQSPACE ≤ fuel + s.B_base →
    (deliverLoop fuel s).1.B_base = s.B_base + (deliverLoop fuel s).2.length ∧
    (deliverLoop fuel s).1.B_base < SEQSPACE ∧
    (deliverLoop fuel s).1.B_received.length = SEQSPACE ∧
    (deliverLoop fuel s).1.B_buffer = s.B_buffer ∧
    (deliverLoop fuel s).1.B_received.getD (SEQSPACE - 1) 0 ≠ 1 ∧
    (∀ k, k < s.B_base ∨ (deliverLoop fuel s).1.B_base ≤ k →
        (deliverLoop fuel s).1.B_received.getD k 0 = s.B_received.getD k 0) ∧
    (∀ k, s.B_base ≤ k → k < (deliverLoop fuel s).1.B_base →
        (deliverLoop fuel s).1.B_received.getD k 0 = 0) ∧
    (∀ m, m < (deliverLoop fuel s).2.length →
        (deliverLoop fuel s).2.getD m [] = (s.B_buffer.getD (s.B_base + m) pkt0).payload ∧
        s.B_received.getD (s.B_base + m) 0 = 1) := by
  induction fuel with
  | zero =>
    intro s h1 h2 h3 h4
    exact absurd h4 (by omega)
  | succ n ih =>
    intro s h1 h2 h3 h4
    by_cases hr : s.B_received.getD s.B_base 0 = 1
    · have hbne : s.B_base ≠ SEQSPACE - 1 := by
        intro e
        rw [← e] at h3
        exact h3 hr
      have hb1 : (s.B_base + 1) % SEQSPACE = s.B_base + 1 := by
        simp only [SEQSPACE] at h2 hbne ⊢
        omega
      set s' : BState := { s with B_received := s.B_received.set s.B_base 0,
                                  B_base := (s.B_base + 1) % SEQSPACE } with hs'
      have hstep : deliverLoop (n + 1) s =
          ((deliverLoop n s').1,
           (s.B_buffer.getD s.B_base pkt0).payload :: (deliverLoop n s').2) := by
        rw [deliverLoop, if_pos hr]
      have hlen' : s'.B_received.length = SEQSPACE := by
        show (s.B_received.set s.B_base 0).length = SEQSPACE
        simpa using h1
      have hb2' : s'.B_base < SEQSPACE := by
        show (s.B_base + 1) % SEQSPACE < SEQSPACE
        exact Nat.mod_lt _ (by rw [SEQSPACE]; omega)
      have h3' : s'.B_received.getD (SEQSPACE - 1) 0 ≠ 1 := by
        show (s.B_received.set s.B_base 0).getD (SEQSPACE - 1) 0 ≠ 1
        rw [getD_set]
        split
        · decide
        · exact h3
      have hsb : s'.B_base = s.B_base + 1 := hb1
      have h4' : SEQSPACE ≤ n + s'.B_base := by
        rw [hsb]
        omega
      obtain ⟨g1, g2, g3, g4, g5, g6, g7, g8⟩ := ih s' hlen' hb2' h3' h4'
      rw [hstep]
      refine ⟨?_, g2, g3, g4, g5, ?_, ?_, ?_⟩
      · rw [g1, hsb]
        simp only [List.length_cons]
        omega
      · intro k hk
        have hkk : k < s'.B_base ∨ (deliverLoop n s').1.B_base ≤ k := by
          rcases hk with hk | hk
          · exact Or.inl (by rw [hsb]; omega)
          · exact Or.inr hk
        rw [g6 k hkk]
        show (s.B_received.set s.B_base 0).getD k 0 = s.B_received.getD k 0
        rw [getD_set]
        split
        · rename_i hcc
          exfalso
          rcases hk with hk | hk
          · omega
          · rw [g1, hsb] at hk
            omega
        · rfl
      · intro k hk1 hk2
        by_cases hkb : k = s.B_base
        · have hkk : k < s'.B_base ∨ (deliverLoop n s').1.B_base ≤ k :=
            Or.inl (by rw [hsb]; omega)
          rw [g6 k hkk]
          show (s.B_received.set s.B_base 0).getD k 0 = 0
          rw [getD_set, if_pos ⟨hkb.symm, by rw [h1]; exact h2⟩]
        · exact g7 k (by rw [hsb]; omega) hk2
      · intro m hm
        match m with
        | 0 =>
          refine ⟨by simp, by simpa using hr⟩
        | m + 1 =>
          have hm' : m < (deliverLoop n s').2.length := by
            simpa using hm
          obtain ⟨ga, gb⟩ := g8 m hm'
          have hidx : s'.B_base + m = s.B_base + (m + 1) := by
            rw [hsb]
            omega
          constructor
          · rw [List.getD_cons_succ, ga, hidx]
          · rw [hidx] at gb
            have gb' : (s.B_received.set s.B_base 0).getD (s.B_base + (m + 1)) 0 = 1 := gb
            rw [getD_set] at gb'
            split at gb'
            · exact absurd gb' (by decide)
            · exact gb'
    · rw [deliverLoop, if_neg hr]
      refine ⟨by simp, h2, h1, rfl, h3, fun k _ => rfl, ?_, ?_⟩
      · intro k hk1 hk2
        exfalso
        have hk2' : k < s.B_base := hk2
        omega
      · intro m hm
        exact absurd hm (by simp)

theorem B_accept_aux (P : Pkt → Prop) (s1 : BState)
    (hI1 : InvB s1) (hS1 : slotsOK P s1) :
    InvB (deliverLoop SEQSPACE s1).1 ∧ slotsOK P (deliverLoop SEQSPACE s1).1 ∧
    (deliverLoop SEQSPACE s1).1.B_base = s1.B_base + (deliverLoop SEQSPACE s1).2.length ∧
    (∀ m, m < (deliverLoop SEQSPACE s1).2.length →
      ∃ q, P q ∧ q.checksum = ComputeChecksum q ∧
        q.seqnum = ((s1.B_base + m : Nat) : Int) ∧
        (deliverLoop SEQSPACE s1).2.getD m [] = q.payload) := by
  obtain ⟨hlen, hbuf, hb, h63⟩ := hI1
  obtain ⟨g1, g2, g3, g4, g5, g6, g7, g8⟩ :=
    deliverLoop_spec SEQSPACE s1 hlen hb h63 (by omega)
  refine ⟨⟨g3, by rw [g4]; exact hbuf, g2, g5⟩, ?_, g1, ?_⟩
  · intro k hk hk1
    rw [g4]
    have hrec : s1.B_received.getD k 0 = 1 := by
      by_cases hin : s1.B_base ≤ k ∧ k < (deliverLoop SEQSPACE s1).1.B_base
      · exfalso
        have hz := g7 k hin.1 hin.2
        rw [hz] at hk1
        exact absurd hk1 (by decide)
      · have hor : k < s1.B_base ∨ (deliverLoop SEQSPACE s1).1.B_base ≤ k := by
          omega
        rw [← g6 k hor]
        exact hk1
    exact hS1 k hk hrec
  · intro m hm
    obtain ⟨ga, gb⟩ := g8 m hm
    have hidx : s1.B_base + m < SEQSPACE := by
      omega
    obtain ⟨q1, q2, q3⟩ := hS1 (s1.B_base + m) hidx gb
    exact ⟨s1.B_buffer.getD (s1.B_base + m) pkt0, q1, q2, q3, ga⟩

theorem B_input_step (P : Pkt → Prop) (s : BState) (p : Pkt) (hP : P p)
    (hI : InvB s) (hS : slotsOK P s) :
    InvB (B_input p s).s ∧ slotsOK P (B_input p s).s ∧
    (B_input p s).s.B_base = s.B_base + (B_input p s).delivered.length ∧
    (∀ m, m < (B_input p s).delivered.length →
      ∃ q, P q ∧ q.checksum = ComputeChecksum q ∧
        q.seqnum = ((s.B_base + m : Nat) : Int) ∧
        (B_input p s).delivered.getD m [] = q.payload) := by
  obtain ⟨hlen, hbuf, hb, h63⟩ := hI
  by_cases hc : p.checksum ≠ ComputeChecksum p
  · rw [B_input, if_pos hc]
    exact ⟨⟨hlen, hbuf, hb, h63⟩, hS, by simp, by intro m hm; simp at hm⟩
  · by_cases hw : srWindowTest p.seqnum s.B_base = true
    · by_cases hpos : 0 ≤ p.seqnum
      · obtain ⟨hsq64, hsqne⟩ := windowTest_bounds p.seqnum s.B_base hb hw hpos
        by_cases hcache : s.B_received.getD p.seqnum.toNat 0 = 0
        · set s1 : BState :=
            { s with B_buffer := s.B_buffer.set p.seqnum.toNat p,
                     B_received := s.B_received.set p.seqnum.toNat 1 } with hs1
          have hacc : B_input p s =
              ⟨(deliverLoop SEQSPACE s1).1, [mkAck p.seqnum],
                (deliverLoop SEQSPACE s1).2⟩ := by
            rw [B_input, if_neg hc, if_pos hw, if_pos hpos]
            simp only []
            rw [if_pos hcache, ← hs1]
          have hI1 : InvB s1 := by
            refine ⟨?_, ?_, hb, ?_⟩
            · show (s.B_received.set p.seqnum.toNat 1).length = SEQSPACE
              simpa using hlen
            · show (s.B_buffer.set p.seqnum.toNat p).length = SEQSPACE
              simpa using hbuf
            · show (s.B_received.set p.seqnum.toNat 1).getD (SEQSPACE - 1) 0 ≠ 1
              rw [getD_set]
              split
              · rename_i hcc
                exact absurd hcc.1 hsqne
              · exact h63
          have hS1 : slotsOK P s1 := by
            intro k hk hk1
            by_cases hksq : k = p.seqnum.toNat
            · have hbufk : s1.B_buffer.getD k pkt0 = p := by
                show (s.B_buffer.set p.seqnum.toNat p).getD k pkt0 = p
                rw [getD_set, if_pos ⟨hksq.symm, by rw [hbuf]; exact hsq64⟩]
              rw [hbufk]
              refine ⟨hP, not_not.mp hc, ?_⟩
              rw [hksq]
              exact (Int.toNat_of_nonneg hpos).symm
            · have hk1' : s.B_received.getD k 0 = 1 := by
                have hset : (s.B_received.set p.seqnum.toNat 1).getD k 0 = 1 := hk1
                rw [getD_set] at hset
                split at hset
                · rename_i hcc
                  exact absurd hcc.1 (fun e => hksq e.symm)
                · exact hset
              have hbufk : s1.B_buffer.getD k pkt0 = s.B_buffer.getD k pkt0 := by
                show (s.B_buffer.set p.seqnum.toNat p).getD k pkt0 = _
                rw [getD_set, if_neg (fun hcc => hksq hcc.1.symm)]
              rw [hbufk]
              exact hS k hk hk1'
          rw [hacc]
          obtain ⟨a1, a2, a3, a4⟩ := B_accept_aux P s1 hI1 hS1
          exact ⟨a1, a2, a3, a4⟩
        · have hacc : B_input p s =
              ⟨(deliverLoop SEQSPACE s).1, [mkAck p.seqnum],
                (deliverLoop SEQSPACE s).2⟩ := by
            rw [B_input, if_neg hc, if_pos hw, if_pos hpos]
            simp only []
            rw [if_neg hcache]
          rw [hacc]
          obtain ⟨a1, a2, a3, a4⟩ := B_accept_aux P s ⟨hlen, hbuf, hb, h63⟩ hS
          exact ⟨a1, a2, a3, a4⟩
      · rw [B_input, if_neg hc, if_pos hw, if_neg hpos]
        exact ⟨⟨hlen, hbuf, hb, h63⟩, hS, by simp, by intro m hm; simp at hm⟩
    · rw [B_input, if_neg hc, if_neg hw]
      exact ⟨⟨hlen, hbuf, hb, h63⟩, hS, by simp, by intro m hm; simp at hm⟩

theorem runB_fold (P : Pkt → Prop) : ∀ (ps : List Pkt) (st : BState × List (List Int)),
    (∀ p ∈ ps, P p) → InvB st.1 → slotsOK P st.1 →
    st.1.B_base = st.2.length →
    (∀ n, n < st.2.length → ∃ q, P q ∧ q.checksum = ComputeChecksum q ∧
        q.seqnum = (n : Int) ∧ st.2.getD n [] = q.payload) →
    (InvB (ps.foldl runBStep st).1 ∧
     (ps.foldl runBStep st).1.B_base = (ps.foldl runBStep st).2.length ∧
     (∀ n, n < (ps.foldl runBStep st).2.length →
        ∃ q, P q ∧ q.checksum = ComputeChecksum q ∧
          q.seqnum = (n : Int) ∧ (ps.foldl runBStep st).2.getD n [] = q.payload)) := by
  intro ps
  induction ps with
  | nil =>
    intro st hps hI hS hbase hdel
    exact ⟨hI, hbase, hdel⟩
  | cons p ps ih =>
    intro st hps hI hS hbase hdel
    rw [List.foldl_cons]
    have hstep := B_input_step P st.1 p (hps p (List.mem_cons_self p ps)) hI hS
    apply ih
    · intro q hq
      exact hps q (List.mem_cons_of_mem p hq)
    · exact hstep.1
    · exact hstep.2.1
    · show (B_input p st.1).s.B_base = (st.2 ++ (B_input p st.1).delivered).length
      rw [List.length_append, hstep.2.2.1, hbase]
    · intro n hn
      show ∃ q, P q ∧ _ ∧ _ ∧ (st.2 ++ (B_input p st.1).delivered).getD n [] = q.payload
      have hn' : n < (st.2 ++ (B_input p st.1).delivered).length := hn
      rw [List.length_append] at hn'
      by_cases hlt : n < st.2.length
      · obtain ⟨q, hq1, hq2, hq3, hq4⟩ := hdel n hlt
        refine ⟨q, hq1, hq2, hq3, ?_⟩
        rw [getD_append_left _ _ _ _ hlt]
        exact hq4
      · obtain ⟨q, hq1, hq2, hq3, hq4⟩ :=
          hstep.2.2.2 (n - st.2.length) (by omega)
        refine ⟨q, hq1, hq2, ?_, ?_⟩
        · rw [hq3]
          exact congrArg (fun x : Nat => (x : Int)) (by omega)
        · rw [getD_append_right _ _ _ _ (by omega)]
          exact hq4

/-- C7: over any sequence of B_input calls from B_init, the n-th payload
handed to tolayer5 is the payload of an uncorrupted input packet whose
seqnum is exactly n, and the number of deliveries equals the receiver
base: deliveries happen in strictly increasing seqnum order, each
delivery advances the base by one, the order matches the sender's
transmission order by seqnum, and no sequence number is ever delivered
twice. -/
theorem C7_receiver_in_order_exactly_once (ps : List Pkt) :
    (runB ps).2.length = (runB ps).1.B_base ∧
    (∀ n, n < (runB ps).2.length →
      ∃ q, q ∈ ps ∧ q.checksum = ComputeChecksum q ∧ q.seqnum = (n : Int) ∧
        (runB ps).2.getD n [] = q.payload) := by
  have h := runB_fold (fun q => q ∈ ps) ps (B_init, [])
    (fun _ hq => hq) invB_init (slotsOK_init _) rfl
    (by intro n hn; exact absurd hn (by simp))
  exact ⟨h.2.1.symm, h.2.2⟩

/-- Witness for C7 at the one-packet input [gp0]: one payload is
delivered, the base is 1, and the delivered payload is gp0's. -/
theorem C7_receiver_in_order_exactly_once_witness :
    (runB [gp0]).2.length = (runB [gp0]).1.B_base ∧
    (∃ q, q ∈ [gp0] ∧ q.checksum = ComputeChecksum q ∧ q.seqnum = ((0 : Nat) : Int) ∧
      (runB [gp0]).2.getD 0 [] = q.payload) :=
  ⟨(C7_receiver_in_order_exactly_once [gp0]).1,
   (C7_receiver_in_order_exactly_once [gp0]).2 0 (by decide)⟩

end SR
